import Mathlib

/-
Shallow embedding of the Ozen-Athena Vulkan render core
(src/src/lib/app.rs, sync_objects.rs, vertex_buffer.rs).

Fence handles are natural numbers; the null fence handle is `none` in
`Option Nat`.  GPU progress is abstracted by an `outstanding` list of
(imageIndex, fence) submissions that have not yet been observed complete;
a successful infinite-timeout fence wait removes every outstanding
submission signalled by that fence, and a device-idle wait removes all of
them.  Fallible driver calls (acquire, submit, present) are resolved by an
explicit environment value.
-/

namespace OzenAthena

/-- Constant `MAX_FRAMES_IN_FLIGHT` from app.rs line 40. -/
def MAX_FRAMES_IN_FLIGHT : Nat := 2

/-- A nullable fence reference (`vk::Fence`, where `vk::Fence::null()` is `none`). -/
abbrev FenceRef := Option Nat

/-- The slice of `App`/`AppData` state that the render loop reads and writes
(app.rs lines 42-52 and 473-520), restricted to the synchronization fields. -/
structure RenderState where
  frame : Nat
  resized : Bool
  inFlightFences : List Nat
  imagesInFlight : List FenceRef
  outstanding : List (Nat × Nat)
  numImages : Nat
deriving DecidableEq, Repr

/-- Result of `acquire_next_image_khr` (app.rs lines 101-112). -/
inductive AcquireResult where
  | success (imageIndex : Nat)
  | outOfDate
  | failure (e : Nat)
deriving DecidableEq, Repr

/-- Result of `queue_present_khr` (app.rs lines 153-157). -/
inductive PresentResult where
  | success
  | suboptimal
  | outOfDate
  | failure (e : Nat)
deriving DecidableEq, Repr

/-- One render call's driver responses: the acquire result, whether
`queue_submit` fails, the present result, and the image count the swapchain
rebuild would produce (swapchain creation itself lives outside app.rs and is
abstracted by the count it yields). -/
structure RenderEnv where
  acquire : AcquireResult
  submitFailure : Option Nat
  presentRes : PresentResult
  rebuildImageCount : Nat
deriving DecidableEq, Repr

/-- How one `App::render` call terminates: `Ok(())`, `Err(e)` returned to the
caller, or a panic raised by an `.unwrap()` (app.rs line 144). -/
inductive RenderOutcome where
  | ok
  | fatal (e : Nat)
  | panicStop (e : Nat)
deriving DecidableEq, Repr

/-- Observable actions of one render call, in program order. -/
inductive Event where
  | waitFence (f : Nat)
  | acquireImage (i : Nat)
  | setImageFence (i : Nat) (f : Nat)
  | recordCommands (i : Nat)
  | updateUniform (i : Nat)
  | resetFence (f : Nat)
  | submit (i : Nat) (f : Nat)
  | presentImage (i : Nat)
  | rebuildSwapchain
  | advanceFrameCounter
deriving DecidableEq, Repr

structure StepResult where
  outcome : RenderOutcome
  state : RenderState
  events : List Event
deriving DecidableEq, Repr

/-- Rust `Vec::resize(new_len, value)`: truncates when shrinking, appends
`value` when growing; surviving entries are left untouched. -/
def vecResize (v : List α) (newLen : Nat) (value : α) : List α :=
  v.take newLen ++ List.replicate (newLen - v.length) value

/-- Model of `wait_for_fences(&[f], true, u64::MAX)`: on return every submission
signalled by `f` is complete. -/
def waitForFence (s : RenderState) (f : Nat) : RenderState :=
  { s with outstanding := s.outstanding.filter (fun p => p.2 != f) }

/-- The read `self.data.in_flight_fences[self.frame]` (app.rs line 96). -/
def slotFence (s : RenderState) : Nat :=
  s.inFlightFences.getD s.frame 0

/-- App.rs lines 114-117: wait on the acquired image's fence reference when
it is non-null.  (The preceding frame-slot fence wait does not touch
`images_in_flight`, so reading it from `s` is exact.) -/
def crossImageWait (s : RenderState) (imageIndex : Nat) : RenderState :=
  match s.imagesInFlight.getD imageIndex none with
  | some g => waitForFence s g
  | none => s

/-- App.rs line 119: `images_in_flight[image_index] = in_flight_fence`. -/
def bindImageFence (s : RenderState) (imageIndex f : Nat) : RenderState :=
  { s with imagesInFlight := s.imagesInFlight.set imageIndex (some f) }

/-- App.rs lines 138-144: `queue_submit(graphics_queue, .., in_flight_fence)`
adds one outstanding unit of GPU work on the acquired image. -/
def submitFrame (s : RenderState) (imageIndex f : Nat) : RenderState :=
  { s with outstanding := s.outstanding ++ [(imageIndex, f)] }

/-- App.rs line 169: `frame = (frame + 1) % MAX_FRAMES_IN_FLIGHT`. -/
def advanceFrame (s : RenderState) : RenderState :=
  { s with frame := (s.frame + 1) % MAX_FRAMES_IN_FLIGHT }

/-- App.rs line 160: `self.resized = false`. -/
def clearResized (s : RenderState) : RenderState :=
  { s with resized := false }

/-- Model of `App::recreate_swapchain` (app.rs lines 387-405): `device_wait_idle`
completes all outstanding GPU work, the swapchain group is rebuilt (tracked
here by the new image count), and `images_in_flight` is resized to the new
image count with `vk::Fence::null()` as the fill value for appended slots. -/
def recreate_swapchain (s : RenderState) (newImageCount : Nat) : RenderState :=
  { s with outstanding := [],
           numImages := newImageCount,
           imagesInFlight := vecResize s.imagesInFlight newImageCount none }

/-- Model of `App::render` (app.rs lines 95-171), one call. -/
def renderStep (s : RenderState) (env : RenderEnv) : StepResult :=
  let f := slotFence s
  match env.acquire with
  | .outOfDate =>
      { outcome := .ok,
        state := recreate_swapchain (waitForFence s f) env.rebuildImageCount,
        events := [.waitFence f, .rebuildSwapchain] }
  | .failure e =>
      { outcome := .fatal e,
        state := waitForFence s f,
        events := [.waitFence f] }
  | .success i =>
      let preWaitEvents : List Event :=
        match s.imagesInFlight.getD i none with
        | some g => [.waitFence g]
        | none => []
      let s3 := bindImageFence (crossImageWait (waitForFence s f) i) i f
      let evPre := [Event.waitFence f, Event.acquireImage i] ++ preWaitEvents ++
        [Event.setImageFence i f, Event.recordCommands i, Event.updateUniform i,
         Event.resetFence f]
      match env.submitFailure with
      | some e => { outcome := .panicStop e, state := s3, events := evPre }
      | none =>
        let s4 := submitFrame s3 i f
        let ev4 := evPre ++ [Event.submit i f, Event.presentImage i]
        let changed := env.presentRes == .suboptimal || env.presentRes == .outOfDate
        if s.resized || changed then
          { outcome := .ok,
            state := advanceFrame
              (recreate_swapchain (clearResized s4) env.rebuildImageCount),
            events := ev4 ++ [.rebuildSwapchain, .advanceFrameCounter] }
        else
          match env.presentRes with
          | .failure e => { outcome := .fatal e, state := s4, events := ev4 }
          | _ =>
              { outcome := .ok,
                state := advanceFrame s4,
                events := ev4 ++ [.advanceFrameCounter] }

/-- Every outstanding submission is registered in `images_in_flight` under
its target image. -/
def RefConsistent (s : RenderState) : Prop :=
  ∀ p ∈ s.outstanding, s.imagesInFlight.getD p.1 none = some p.2

/-- The synchronization invariant of the render loop: no image is targeted
by two outstanding submissions, every outstanding submission is recorded in
the fence-reference table, and the table spans the swapchain. -/
def Inv (s : RenderState) : Prop :=
  (s.outstanding.map Prod.fst).Nodup ∧ RefConsistent s ∧
    s.imagesInFlight.length = s.numImages

/-- A successful acquire yields an index below the swapchain image count. -/
def acquireIndexValid : AcquireResult → Nat → Bool
  | .success i, n => decide (i < n)
  | _, _ => true

/-- The driver only hands out image indices that exist. -/
def EnvValid (s : RenderState) (env : RenderEnv) : Prop :=
  acquireIndexValid env.acquire s.numImages = true

def isAcquireSuccess : AcquireResult → Bool
  | .success _ => true
  | _ => false

/-- An environment that drives the render call down its full path:
successful acquire, successful submit, plain-success present. -/
def FullPathEnv (env : RenderEnv) : Prop :=
  isAcquireSuccess env.acquire = true ∧ env.submitFailure = none ∧
    env.presentRes = .success

/-- Iterated render calls. -/
def runRender (s : RenderState) (envs : List RenderEnv) : RenderState :=
  envs.foldl (fun t e => (renderStep t e).state) s

/- ----- Memory-type selection (vertex_buffer.rs lines 135-150) ----- -/

/-- The error returned by `get_memory_type_index` when no memory type fits
("Failed to find suitable memory type."). -/
inductive MemError where
  | noSuitableMemoryType
deriving DecidableEq, Repr

/-- vertex_buffer.rs lines 145-147: memory type `i` is suitable when bit `i`
of the resource's reported `memory_type_bits` is set and the type's property
flags contain every caller-required flag (`flags.contains(properties)` is
`flags AND properties == properties`). -/
def memoryTypeSuitable (memoryTypeBits : Nat) (typeFlags : Nat → Nat)
    (properties : Nat) (i : Nat) : Bool :=
  (memoryTypeBits &&& (1 <<< i) != 0) &&
    (typeFlags i &&& properties == properties)

/-- Model of `(0..count).find(..)`: scan upward from `i`, returning the first index
below `count` satisfying `p`. -/
def findSuitable (p : Nat → Bool) (i count : Nat) : Option Nat :=
  if i < count then
    if p i then some i else findSuitable p (i + 1) count
  else none
termination_by count - i

/-- Model of `get_memory_type_index` (vertex_buffer.rs lines 135-150): the memory
table is `typeFlags` over indices below `memoryTypeCount`. -/
def get_memory_type_index (memoryTypeCount : Nat) (typeFlags : Nat → Nat)
    (properties memoryTypeBits : Nat) : Except MemError Nat :=
  match findSuitable (memoryTypeSuitable memoryTypeBits typeFlags properties)
      0 memoryTypeCount with
  | some i => .ok i
  | none => .error .noSuitableMemoryType

/- ----- Sync-object creation (sync_objects.rs lines 7-27) ----- -/

/-- A fence object with its creation-time signal state. -/
structure FenceObj where
  handle : Nat
  signaled : Bool
deriving DecidableEq, Repr

/-- The `AppData` fields `create_sync_objects` writes. -/
structure SyncData where
  imageAvailableSemaphore : List Nat
  renderFinishedSemaphore : List Nat
  inFlightFences : List FenceObj
  imagesInFlight : List FenceRef
deriving DecidableEq, Repr

/-- Sync creation state with a fresh-handle counter. -/
structure SyncGen where
  data : SyncData
  next : Nat
deriving DecidableEq, Repr

/-- One iteration of the loop at sync_objects.rs lines 11-19: push one
image-available semaphore, one render-finished semaphore, and one fence
created with `FenceCreateFlags::SIGNALED`. -/
def syncIter (g : SyncGen) : SyncGen :=
  { data := { g.data with
      imageAvailableSemaphore := g.data.imageAvailableSemaphore ++ [g.next],
      renderFinishedSemaphore := g.data.renderFinishedSemaphore ++ [g.next + 1],
      inFlightFences := g.data.inFlightFences ++ [⟨g.next + 2, true⟩] },
    next := g.next + 3 }

/-- Model of `create_sync_objects` (sync_objects.rs lines 7-27): loop
`MAX_FRAMES_IN_FLIGHT` times, then map every swapchain image to the null
fence reference. -/
def create_sync_objects (numImages : Nat) (g : SyncGen) : SyncGen :=
  let g1 := (List.range MAX_FRAMES_IN_FLIGHT).foldl (fun a _ => syncIter a) g
  { g1 with data := { g1.data with
      imagesInFlight := (List.range numImages).map (fun _ => none) } }

/-- The empty `AppData::default()` sync state (app.rs line 58). -/
def initialSyncGen : SyncGen :=
  ⟨⟨[], [], [], []⟩, 0⟩

/-- An infinite-timeout wait on a fence blocks exactly while the fence is
unsignaled. -/
def fenceWaitWouldBlock (f : FenceObj) : Bool :=
  !f.signaled

/- ----- Secondary command buffer recording (app.rs lines 222-331) ----- -/

/-- App.rs lines 244-255: `while model_index >= command_buffers.len()`,
allocate one fresh secondary buffer from the per-image pool and push it.
`next` is the fresh-handle supply. -/
def allocateThrough (bufs : List Nat) (modelIndex next : Nat) :
    List Nat × Nat :=
  if bufs.length ≤ modelIndex then
    allocateThrough (bufs ++ [next]) modelIndex (next + 1)
  else (bufs, next)
termination_by modelIndex + 1 - bufs.length
decreasing_by simp_wf; omega

/-- The per-image allocation effect of one `update_command_buffer` call
(app.rs lines 222-225): record drawables `0..models`, growing the
secondary-buffer list lazily. -/
def update_command_buffer_record (bufs : List Nat) (models next : Nat) :
    List Nat × Nat :=
  (List.range models).foldl (fun acc i => allocateThrough acc.1 i acc.2)
    (bufs, next)

/-- Modelled from the spec: the per-image secondary-buffer list starts empty
(its initializer, `create_command_buffers`, is not in src/; per the spec,
secondary buffers are "allocated lazily and kept permanently once allocated").
A history of frames is the list of per-frame drawable counts. -/
def runFrames (ms : List Nat) : List Nat × Nat :=
  ms.foldl (fun acc m => update_command_buffer_record acc.1 m acc.2) ([], 0)

/-- The set of drawable indices ever recorded across a history: frame with
count `m` records indices `0..m`. -/
def recordedIndices (ms : List Nat) : Finset Nat :=
  ms.foldl (fun acc m => acc ∪ Finset.range m) ∅

/- ----- Per-drawable recording content (app.rs lines 259-330) ----- -/

inductive Stage where
  | vertex
  | fragment
deriving DecidableEq, Repr

/-- One `cmd_push_constants` call: shader stage, byte offset, byte size. -/
structure PushConstantRange where
  stage : Stage
  offset : Nat
  size : Nat
deriving DecidableEq, Repr

/-- The byte range written by a push-constant call. -/
def byteRange (r : PushConstantRange) : Finset Nat :=
  Finset.Ico r.offset (r.offset + r.size)

inductive DrawCommand where
  | bindPipeline
  | bindVertexBuffers
  | bindIndexBuffer
  | bindDescriptorSets (imageIndex : Nat)
  | pushConstants (r : PushConstantRange)
  | drawIndexed (indexCount : Nat)
deriving DecidableEq, Repr

/-- Value of `size_of::<Mat4>()`: a 4x4 matrix of 4-byte floats. -/
def mat4ByteSize : Nat := 4 * 4 * 4

/-- The command sequence recorded into one secondary buffer
(app.rs lines 290-326): bind pipeline, vertex and index buffers, and the
image's descriptor set; push the model matrix bytes at offset 0 for the
vertex stage and the 4 opacity bytes at offset 64 for the fragment stage;
one indexed draw over the shared index buffer. -/
def secondaryCommands (imageIndex indexCount : Nat) : List DrawCommand :=
  [ .bindPipeline, .bindVertexBuffers, .bindIndexBuffer,
    .bindDescriptorSets imageIndex,
    .pushConstants ⟨.vertex, 0, mat4ByteSize⟩,
    .pushConstants ⟨.fragment, 64, 4⟩,
    .drawIndexed indexCount ]

/-- The push-constant calls of a recorded command list, in order. -/
def pushRangesOf (cmds : List DrawCommand) : List PushConstantRange :=
  cmds.filterMap (fun c => match c with
    | .pushConstants r => some r
    | _ => none)

/-- App.rs line 261: `y = ((model_index % 2) as f32) * 2.5 - 1.25`.
Exact f32 arithmetic on these values, embedded in the rationals. -/
def drawableY (i : Nat) : ℚ :=
  ((i % 2 : Nat) : ℚ) * 2.5 - 1.25

/-- App.rs line 262: `z = ((model_index / 2) as f32) * -2.0 + 1.0`. -/
def drawableZ (i : Nat) : ℚ :=
  ((i / 2 : Nat) : ℚ) * (-2) + 1

/-- App.rs line 266: `Mat4::from_translation(vec3(0.0, y, z))`. -/
def drawableTranslation (i : Nat) : ℚ × ℚ × ℚ :=
  (0, drawableY i, drawableZ i)

/-- App.rs line 267: the rotation axis `vec3(0.0, 0.0, 1.0)`. -/
def rotationAxis : ℚ × ℚ × ℚ := (0, 0, 1)

/-- App.rs line 267: `Deg(90.0) * time`, in degrees. -/
def drawableRotationDegrees (t : ℚ) : ℚ := 90 * t

/-- App.rs line 272: `opacity = (model_index + 1) as f32 * 0.25`. -/
def drawableOpacity (i : Nat) : ℚ :=
  ((i + 1 : Nat) : ℚ) * 0.25

/-- The spec's formula for the translation:
`(0, (i mod 2)*2.5 - 1.25, -2*(i div 2) + 1)`. -/
def specTranslation (i : Nat) : ℚ × ℚ × ℚ :=
  (0, ((i % 2 : Nat) : ℚ) * 2.5 - 1.25, -2 * ((i / 2 : Nat) : ℚ) + 1)

/-- The spec's formula for the opacity: `(i+1)*0.25`. -/
def specOpacity (i : Nat) : ℚ :=
  ((i : ℚ) + 1) * 0.25

/- ----- Teardown sequences (app.rs lines 407-470, vertex_buffer.rs 83-84) ----- -/

/-- GPU objects named in the teardown paths.  Objects whose backing memory
the teardown frees are keyed together with that memory. -/
inductive GpuObject where
  | indexBuffer
  | vertexBuffer
  | textureImage
  | uniformBuffer (i : Nat)
  | depthImage
  | colorImage
  | stagingBuffer
  | sampler
  | textureImageView
  | commandPool
  | descriptorSetLayout
  | descriptorPool
  | depthImageView
  | colorImageView
  | framebuffer (i : Nat)
  | pipelineObj
  | pipelineLayout
  | renderPassObj
  | swapchainImageView (i : Nat)
  | swapchainObj
  | fence (i : Nat)
  | semaphoreRF (i : Nat)
  | semaphoreIA (i : Nat)
  | imageCommandPool (i : Nat)
deriving DecidableEq, Repr

/-- A teardown action: destroy an object, or free the device-memory
allocation backing the named object. -/
inductive TeardownEvent where
  | destroyObj (o : GpuObject)
  | freeMem (o : GpuObject)
  | deviceWaitIdle
deriving DecidableEq, Repr

/-- Model of `App::destroy_swapchain` (app.rs lines 454-470), with `n` swapchain
images (hence `n` uniform buffers, framebuffers and image views). -/
def destroy_swapchain_events (n : Nat) : List TeardownEvent :=
  [ .destroyObj .descriptorPool ]
  ++ (List.range n).map (fun i => .freeMem (.uniformBuffer i))
  ++ (List.range n).map (fun i => .destroyObj (.uniformBuffer i))
  ++ [ .destroyObj .depthImageView, .freeMem .depthImage,
       .destroyObj .depthImage,
       .destroyObj .colorImageView, .freeMem .colorImage,
       .destroyObj .colorImage ]
  ++ (List.range n).map (fun i => .destroyObj (.framebuffer i))
  ++ [ .destroyObj .pipelineObj, .destroyObj .pipelineLayout,
       .destroyObj .renderPassObj ]
  ++ (List.range n).map (fun i => .destroyObj (.swapchainImageView i))
  ++ [ .destroyObj .swapchainObj ]

/-- Model of `App::destroy` (app.rs lines 407-452), through the device-level GPU
resources (instance/surface/debug teardown omitted as out of model scope). -/
def destroy_events (n : Nat) : List TeardownEvent :=
  [ .deviceWaitIdle ]
  ++ destroy_swapchain_events n
  ++ (List.range MAX_FRAMES_IN_FLIGHT).map (fun i => .destroyObj (.fence i))
  ++ (List.range MAX_FRAMES_IN_FLIGHT).map
       (fun i => .destroyObj (.semaphoreRF i))
  ++ (List.range MAX_FRAMES_IN_FLIGHT).map
       (fun i => .destroyObj (.semaphoreIA i))
  ++ (List.range n).map (fun i => .destroyObj (.imageCommandPool i))
  ++ [ .freeMem .indexBuffer, .destroyObj .indexBuffer,
       .freeMem .vertexBuffer, .destroyObj .vertexBuffer,
       .destroyObj .sampler, .destroyObj .textureImageView,
       .freeMem .textureImage, .destroyObj .textureImage,
       .destroyObj .commandPool, .destroyObj .descriptorSetLayout ]

/-- The staging-buffer teardown inside `create_vertex_buffer` and
`create_index_buffer` (vertex_buffer.rs lines 83-84 and 129-130). -/
def staging_teardown_events : List TeardownEvent :=
  [ .destroyObj .stagingBuffer, .freeMem .stagingBuffer ]

/-- Event `a` occurs strictly before `b` in the event list (indices bounded by the
list length, so the relation is decidable on concrete lists). -/
def eventBefore (l : List TeardownEvent) (a b : TeardownEvent) : Prop :=
  ∃ i ∈ Finset.range l.length, ∃ j ∈ Finset.range l.length,
    i < j ∧ l.get? i = some a ∧ l.get? j = some b

instance eventBeforeDecidable (l : List TeardownEvent) (a b : TeardownEvent) :
    Decidable (eventBefore l a b) := by
  unfold eventBefore
  infer_instance

/- ===== Helper lemmas ===== -/

theorem vecResize_length (v : List α) (n : Nat) (x : α) :
    (vecResize v n x).length = n := by
  simp only [vecResize, List.length_append, List.length_take,
    List.length_replicate]
  omega

theorem vecResize_getElem?_new (v : List α) (n i : Nat) (x : α)
    (h1 : v.length ≤ i) (h2 : i < n) : (vecResize v n x)[i]? = some x := by
  rw [vecResize, List.getElem?_append_right
    (by rw [List.length_take]; omega)]
  rw [List.getElem?_replicate, if_pos (by rw [List.length_take]; omega)]

theorem vecResize_getElem?_old (v : List α) (n i : Nat) (x : α)
    (h1 : i < v.length) (h2 : i < n) : (vecResize v n x)[i]? = v[i]? := by
  rw [vecResize, List.getElem?_append, if_pos (by rw [List.length_take]; omega)]
  rw [List.getElem?_take, if_pos h2]

theorem waitForFence_outstanding (s : RenderState) (f : Nat) :
    (waitForFence s f).outstanding = s.outstanding.filter (fun p => p.2 != f) :=
  rfl

theorem waitForFence_imagesInFlight (s : RenderState) (f : Nat) :
    (waitForFence s f).imagesInFlight = s.imagesInFlight := rfl

theorem crossImageWait_imagesInFlight (s : RenderState) (i : Nat) :
    (crossImageWait s i).imagesInFlight = s.imagesInFlight := by
  unfold crossImageWait
  split <;> rfl

theorem crossImageWait_numImages (s : RenderState) (i : Nat) :
    (crossImageWait s i).numImages = s.numImages := by
  unfold crossImageWait
  split <;> rfl

theorem crossImageWait_frame (s : RenderState) (i : Nat) :
    (crossImageWait s i).frame = s.frame := by
  unfold crossImageWait
  split <;> rfl

theorem Inv_waitForFence (s : RenderState) (f : Nat) (h : Inv s) :
    Inv (waitForFence s f) := by
  obtain ⟨h1, h2, h3⟩ := h
  refine ⟨?_, ?_, h3⟩
  · exact List.Nodup.sublist
      (List.Sublist.map Prod.fst (List.filter_sublist s.outstanding)) h1
  · intro p hp
    exact h2 p (List.mem_filter.mp hp).1

theorem Inv_crossImageWait (s : RenderState) (i : Nat) (h : Inv s) :
    Inv (crossImageWait s i) := by
  unfold crossImageWait
  split
  · exact Inv_waitForFence s _ h
  · exact h

theorem crossImageWait_clears (s : RenderState) (i : Nat) (h : Inv s) :
    ∀ p ∈ (crossImageWait s i).outstanding, p.1 ≠ i := by
  intro p hp hpi
  obtain ⟨h1, h2, h3⟩ := h
  cases hg : s.imagesInFlight.getD i none with
  | none =>
      simp only [crossImageWait, hg] at hp
      have href := h2 p hp
      rw [hpi, hg] at href
      exact Option.noConfusion href
  | some g =>
      simp only [crossImageWait, hg, waitForFence_outstanding] at hp
      have hmem := List.mem_filter.mp hp
      have href := h2 p hmem.1
      rw [hpi, hg] at href
      have hne : p.2 ≠ g := by
        have := hmem.2
        simpa using this
      exact hne (Option.some.injEq .. ▸ href.symm ▸ rfl)

theorem Inv_bindImageFence (s : RenderState) (i f : Nat) (h : Inv s)
    (hclear : ∀ p ∈ s.outstanding, p.1 ≠ i)
    (hi : i < s.imagesInFlight.length) :
    Inv (bindImageFence s i f) ∧
    (∀ p ∈ (bindImageFence s i f).outstanding, p.1 ≠ i) ∧
    (bindImageFence s i f).imagesInFlight.getD i none = some f := by
  obtain ⟨h1, h2, h3⟩ := h
  refine ⟨⟨h1, ?_, ?_⟩, hclear, ?_⟩
  · intro p hp
    show (s.imagesInFlight.set i (some f)).getD p.1 none = some p.2
    rw [List.getD_eq_getElem?_getD, List.getElem?_set_ne (fun hip => hclear p hp hip.symm),
      ← List.getD_eq_getElem?_getD]
    exact h2 p hp
  · show (s.imagesInFlight.set i (some f)).length = s.numImages
    rw [List.length_set]; exact h3
  · show (s.imagesInFlight.set i (some f)).getD i none = some f
    rw [List.getD_eq_getElem?_getD, List.getElem?_set_self hi]
    rfl

theorem Inv_submitFrame (s : RenderState) (i f : Nat) (h : Inv s)
    (hclear : ∀ p ∈ s.outstanding, p.1 ≠ i)
    (href : s.imagesInFlight.getD i none = some f) :
    Inv (submitFrame s i f) := by
  obtain ⟨h1, h2, h3⟩ := h
  refine ⟨?_, ?_, h3⟩
  · show ((s.outstanding ++ [(i, f)]).map Prod.fst).Nodup
    rw [List.map_append, List.nodup_append]
    refine ⟨h1, List.nodup_singleton _, ?_⟩
    intro x hx hx2
    simp only [List.map_cons, List.map_nil, List.mem_singleton] at hx2
    obtain ⟨p, hp, hpx⟩ := List.mem_map.mp hx
    exact hclear p hp (hpx.trans hx2)
  · intro p hp
    rw [show (submitFrame s i f).outstanding = s.outstanding ++ [(i, f)] from rfl,
      List.mem_append] at hp
    cases hp with
    | inl hp => exact h2 p hp
    | inr hp =>
        simp only [List.mem_singleton] at hp
        subst hp
        exact href

theorem Inv_recreate (s : RenderState) (n : Nat) :
    Inv (recreate_swapchain s n) := by
  refine ⟨?_, ?_, ?_⟩
  · show (([] : List (Nat × Nat)).map Prod.fst).Nodup
    exact List.nodup_nil
  · intro p hp
    exact absurd hp (List.not_mem_nil p)
  · show (vecResize s.imagesInFlight n none).length = n
    exact vecResize_length ..

theorem renderStep_preserves_inv (s : RenderState) (env : RenderEnv)
    (hinv : Inv s) (henv : EnvValid s env) :
    Inv (renderStep s env).state := by
  cases hacq : env.acquire with
  | outOfDate =>
      simp only [renderStep, hacq]
      exact Inv_recreate ..
  | failure e =>
      simp only [renderStep, hacq]
      exact Inv_waitForFence _ _ hinv
  | success i =>
      have hi : i < s.numImages := by
        have := henv
        rw [EnvValid, hacq] at this
        exact of_decide_eq_true this
      have hinv1 : Inv (waitForFence s (slotFence s)) :=
        Inv_waitForFence _ _ hinv
      have hinv2 : Inv (crossImageWait (waitForFence s (slotFence s)) i) :=
        Inv_crossImageWait _ _ hinv1
      have hclear2 := crossImageWait_clears (waitForFence s (slotFence s)) i hinv1
      have hil : i < (crossImageWait (waitForFence s (slotFence s)) i).imagesInFlight.length := by
        rw [crossImageWait_imagesInFlight, waitForFence_imagesInFlight, hinv.2.2]
        exact hi
      obtain ⟨hinv3, hclear3, href3⟩ :=
        Inv_bindImageFence (crossImageWait (waitForFence s (slotFence s)) i) i
          (slotFence s) hinv2 hclear2 hil
      have hinv4 : Inv (submitFrame
          (bindImageFence (crossImageWait (waitForFence s (slotFence s)) i) i
            (slotFence s)) i (slotFence s)) :=
        Inv_submitFrame _ i (slotFence s) hinv3 hclear3 href3
      simp only [renderStep, hacq]
      cases hsub : env.submitFailure with
      | some e => exact hinv3
      | none =>
          by_cases hc : (s.resized ||
              (env.presentRes == .suboptimal || env.presentRes == .outOfDate)) = true
          · simp only [hc, if_pos]
            exact Inv_recreate ..
          · rw [if_neg (by simp [hc])]
            cases env.presentRes with
            | failure e => exact hinv4
            | success => exact hinv4
            | suboptimal => exact hinv4
            | outOfDate => exact hinv4

/-- Claim C2: for every swapchain image index, before that image becomes the
target of a new frame's submission the render loop waits on the image's
non-null fence reference (events index 2) and only then binds the image to
the current frame slot's in-flight fence (events index 3); consequently the
loop invariant is preserved and no swapchain image ever carries two
outstanding (unfenced) submissions simultaneously. -/
theorem render_no_image_double_submission (s : RenderState) (env : RenderEnv)
    (hinv : Inv s) (henv : EnvValid s env) :
    Inv (renderStep s env).state ∧
    ((renderStep s env).state.outstanding.map Prod.fst).Nodup ∧
    (∀ i g, env.acquire = .success i →
        s.imagesInFlight.getD i none = some g →
        (renderStep s env).events.get? 2 = some (.waitFence g) ∧
        (renderStep s env).events.get? 3 =
          some (.setImageFence i (slotFence s))) := by
  refine ⟨renderStep_preserves_inv s env hinv henv,
    (renderStep_preserves_inv s env hinv henv).1, ?_⟩
  intro i g hacq hg
  simp only [renderStep, hacq, hg]
  cases env.submitFailure with
  | some e => exact ⟨rfl, rfl⟩
  | none =>
      by_cases hc : (s.resized ||
          (env.presentRes == .suboptimal || env.presentRes == .outOfDate)) = true
      · simp only [hc, if_pos]
        exact ⟨rfl, rfl⟩
      · rw [if_neg (by simp [hc])]
        cases env.presentRes with
        | failure e => exact ⟨rfl, rfl⟩
        | success => exact ⟨rfl, rfl⟩
        | suboptimal => exact ⟨rfl, rfl⟩
        | outOfDate => exact ⟨rfl, rfl⟩

/-- Witness for C2 at a concrete state: image 0 is still fenced by an older
frame (fence 99); the step waits on fence 99 before rebinding image 0. -/
theorem render_no_image_double_submission_witness :
    (Inv ⟨0, false, [10, 11], [some 99], [(0, 99)], 1⟩ ∧
      EnvValid ⟨0, false, [10, 11], [some 99], [(0, 99)], 1⟩
        ⟨.success 0, none, .success, 1⟩) ∧
    (Inv (renderStep ⟨0, false, [10, 11], [some 99], [(0, 99)], 1⟩
        ⟨.success 0, none, .success, 1⟩).state ∧
      ((renderStep ⟨0, false, [10, 11], [some 99], [(0, 99)], 1⟩
        ⟨.success 0, none, .success, 1⟩).state.outstanding.map Prod.fst).Nodup ∧
      (renderStep ⟨0, false, [10, 11], [some 99], [(0, 99)], 1⟩
        ⟨.success 0, none, .success, 1⟩).events.get? 2 =
          some (.waitFence 99) ∧
      (renderStep ⟨0, false, [10, 11], [some 99], [(0, 99)], 1⟩
        ⟨.success 0, none, .success, 1⟩).events.get? 3 =
          some (.setImageFence 0
            (slotFence ⟨0, false, [10, 11], [some 99], [(0, 99)], 1⟩))) := by
  have h1 : Inv ⟨0, false, [10, 11], [some 99], [(0, 99)], 1⟩ := by
    refine ⟨by decide, ?_, by decide⟩
    unfold RefConsistent
    decide
  have h2 : EnvValid ⟨0, false, [10, 11], [some 99], [(0, 99)], 1⟩
      ⟨.success 0, none, .success, 1⟩ := rfl
  have hmain := render_no_image_double_submission
    ⟨0, false, [10, 11], [some 99], [(0, 99)], 1⟩
    ⟨.success 0, none, .success, 1⟩ h1 h2
  exact ⟨⟨h1, h2⟩, hmain.1, hmain.2.1,
    (hmain.2.2 0 99 rfl (by decide)).1, (hmain.2.2 0 99 rfl (by decide)).2⟩

theorem advanceFrame_frame (s : RenderState) :
    (advanceFrame s).frame = (s.frame + 1) % MAX_FRAMES_IN_FLIGHT := rfl

theorem recreate_frame (s : RenderState) (n : Nat) :
    (recreate_swapchain s n).frame = s.frame := rfl

theorem clearResized_frame (s : RenderState) :
    (clearResized s).frame = s.frame := rfl

theorem submitFrame_frame (s : RenderState) (i f : Nat) :
    (submitFrame s i f).frame = s.frame := rfl

theorem bindImageFence_frame (s : RenderState) (i f : Nat) :
    (bindImageFence s i f).frame = s.frame := rfl

theorem waitForFence_frame (s : RenderState) (f : Nat) :
    (waitForFence s f).frame = s.frame := rfl

theorem renderStep_frame_advance (s : RenderState) (env : RenderEnv)
    (h : FullPathEnv env) :
    (renderStep s env).state.frame = (s.frame + 1) % MAX_FRAMES_IN_FLIGHT := by
  obtain ⟨h1, h2, h3⟩ := h
  cases hacq : env.acquire with
  | outOfDate => rw [hacq] at h1; exact absurd h1 (by simp [isAcquireSuccess])
  | failure e => rw [hacq] at h1; exact absurd h1 (by simp [isAcquireSuccess])
  | success i =>
      simp only [renderStep, hacq, h2, h3]
      cases hres : s.resized <;>
        simp [advanceFrame_frame, recreate_frame, clearResized_frame,
          submitFrame_frame, bindImageFence_frame, crossImageWait_frame,
          waitForFence_frame]

theorem renderStep_head_wait (s : RenderState) (env : RenderEnv) :
    (renderStep s env).events.head? = some (.waitFence (slotFence s)) := by
  cases hacq : env.acquire with
  | outOfDate => simp [renderStep, hacq]
  | failure e => simp [renderStep, hacq]
  | success i =>
      simp only [renderStep, hacq]
      cases env.submitFailure with
      | some e => rfl
      | none =>
          by_cases hc : (s.resized ||
              (env.presentRes == .suboptimal || env.presentRes == .outOfDate)) = true
          · simp only [hc, if_pos]; rfl
          · rw [if_neg (by simp [hc])]
            cases env.presentRes <;> rfl

theorem runRender_frame (envs : List RenderEnv) :
    ∀ s : RenderState, s.frame < MAX_FRAMES_IN_FLIGHT →
      (∀ e ∈ envs, FullPathEnv e) →
      (runRender s envs).frame =
        (s.frame + envs.length) % MAX_FRAMES_IN_FLIGHT := by
  induction envs with
  | nil =>
      intro s hs _
      show s.frame = (s.frame + 0) % MAX_FRAMES_IN_FLIGHT
      rw [MAX_FRAMES_IN_FLIGHT] at hs ⊢
      omega
  | cons e es ih =>
      intro s hs hall
      show (runRender (renderStep s e).state es).frame = _
      have hstep := renderStep_frame_advance s e (hall e (List.mem_cons_self e es))
      have hlt : (renderStep s e).state.frame < MAX_FRAMES_IN_FLIGHT := by
        rw [hstep, MAX_FRAMES_IN_FLIGHT]
        omega
      rw [ih (renderStep s e).state hlt (fun x hx => hall x (List.mem_cons_of_mem e hx)),
        hstep]
      rw [MAX_FRAMES_IN_FLIGHT]
      simp only [List.length_cons]
      omega

/-- Claim C3: starting from frame counter 0, after k full render calls the
frame slot is k mod MAX_FRAMES_IN_FLIGHT (= 2), hence always below 2; every
render call's first action is the wait on that slot's in-flight fence, and a
completed call advances the slot by (frame + 1) mod 2. -/
theorem render_frame_slot_mod_two (s0 : RenderState) (envs : List RenderEnv)
    (h0 : s0.frame = 0) (hfull : ∀ e ∈ envs, FullPathEnv e) :
    (runRender s0 envs).frame = envs.length % MAX_FRAMES_IN_FLIGHT ∧
    (runRender s0 envs).frame < MAX_FRAMES_IN_FLIGHT ∧
    (∀ env : RenderEnv, (renderStep (runRender s0 envs) env).events.head? =
        some (.waitFence
          ((runRender s0 envs).inFlightFences.getD
            (envs.length % MAX_FRAMES_IN_FLIGHT) 0))) ∧
    (∀ env : RenderEnv, FullPathEnv env →
        (renderStep (runRender s0 envs) env).state.frame =
          ((runRender s0 envs).frame + 1) % MAX_FRAMES_IN_FLIGHT) := by
  have hframe : (runRender s0 envs).frame =
      envs.length % MAX_FRAMES_IN_FLIGHT := by
    rw [runRender_frame envs s0 (by rw [h0, MAX_FRAMES_IN_FLIGHT]; omega) hfull, h0,
      Nat.zero_add]
  refine ⟨hframe, ?_, ?_, ?_⟩
  · rw [hframe, MAX_FRAMES_IN_FLIGHT]
    omega
  · intro env
    rw [renderStep_head_wait, slotFence, hframe]
  · intro env henv
    exact renderStep_frame_advance _ env henv

/-- Witness for C3: three full render calls from the initial state land on
frame slot 3 mod 2 = 1, and the next call waits on slot 1's fence first. -/
theorem render_frame_slot_mod_two_witness :
    ((⟨0, false, [10, 11], [none], [], 1⟩ : RenderState).frame = 0 ∧
      (∀ e ∈ [(⟨.success 0, none, .success, 1⟩ : RenderEnv),
              ⟨.success 0, none, .success, 1⟩,
              ⟨.success 0, none, .success, 1⟩], FullPathEnv e)) ∧
    (runRender ⟨0, false, [10, 11], [none], [], 1⟩
        [⟨.success 0, none, .success, 1⟩, ⟨.success 0, none, .success, 1⟩,
         ⟨.success 0, none, .success, 1⟩]).frame = 3 % MAX_FRAMES_IN_FLIGHT ∧
    (renderStep (runRender ⟨0, false, [10, 11], [none], [], 1⟩
        [⟨.success 0, none, .success, 1⟩, ⟨.success 0, none, .success, 1⟩,
         ⟨.success 0, none, .success, 1⟩])
        ⟨.outOfDate, none, .success, 1⟩).events.head? =
      some (.waitFence
        ((runRender ⟨0, false, [10, 11], [none], [], 1⟩
          [⟨.success 0, none, .success, 1⟩, ⟨.success 0, none, .success, 1⟩,
           ⟨.success 0, none, .success, 1⟩]).inFlightFences.getD
            (3 % MAX_FRAMES_IN_FLIGHT) 0)) := by
  have hf : ∀ e ∈ [(⟨.success 0, none, .success, 1⟩ : RenderEnv),
      ⟨.success 0, none, .success, 1⟩, ⟨.success 0, none, .success, 1⟩],
      FullPathEnv e := by
    intro e he
    fin_cases he <;> exact ⟨rfl, rfl, rfl⟩
  have hmain := render_frame_slot_mod_two ⟨0, false, [10, 11], [none], [], 1⟩
    [⟨.success 0, none, .success, 1⟩, ⟨.success 0, none, .success, 1⟩,
     ⟨.success 0, none, .success, 1⟩] rfl hf
  exact ⟨⟨rfl, hf⟩, hmain.1, hmain.2.2.1 ⟨.outOfDate, none, .success, 1⟩⟩

/-- Claim C4: acquire-time out-of-date abandons the frame, performs the
swapchain rebuild and returns success without advancing the frame counter;
present-time suboptimal/out-of-date or a pending resize flag likewise
triggers the rebuild (clearing the flag); any other acquire or present
failure is returned to the caller as an unrecoverable error, a submission
failure aborts unrecoverably through the unwrap panic, and none of these
failure paths retries or rebuilds. -/
theorem render_error_paths (s : RenderState) (env : RenderEnv) :
    (env.acquire = .outOfDate →
      (renderStep s env).outcome = .ok ∧
      (renderStep s env).state.frame = s.frame ∧
      (renderStep s env).state.numImages = env.rebuildImageCount ∧
      (renderStep s env).state.imagesInFlight =
        vecResize s.imagesInFlight env.rebuildImageCount none ∧
      Event.rebuildSwapchain ∈ (renderStep s env).events) ∧
    (∀ e, env.acquire = .failure e →
      (renderStep s env).outcome = .fatal e ∧
      (renderStep s env).state.frame = s.frame ∧
      Event.rebuildSwapchain ∉ (renderStep s env).events) ∧
    (∀ i, env.acquire = .success i → env.submitFailure = none →
      (s.resized = true ∨ env.presentRes = .suboptimal ∨
        env.presentRes = .outOfDate) →
      (renderStep s env).outcome = .ok ∧
      (renderStep s env).state.resized = false ∧
      (renderStep s env).state.numImages = env.rebuildImageCount ∧
      Event.rebuildSwapchain ∈ (renderStep s env).events) ∧
    (∀ i e, env.acquire = .success i → env.submitFailure = none →
      env.presentRes = .failure e → s.resized = false →
      (renderStep s env).outcome = .fatal e ∧
      Event.rebuildSwapchain ∉ (renderStep s env).events) ∧
    (∀ i e, env.acquire = .success i → env.submitFailure = some e →
      (renderStep s env).outcome = .panicStop e ∧
      Event.rebuildSwapchain ∉ (renderStep s env).events) := by
  refine ⟨?_, ?_, ?_, ?_, ?_⟩
  · intro hacq
    simp [renderStep, hacq, recreate_swapchain, waitForFence, vecResize]
  · intro e hacq
    simp [renderStep, hacq, waitForFence]
  · intro i hacq hsub hpres
    cases hgi : s.imagesInFlight.getD i none <;>
      rw [List.getD_eq_getElem?_getD] at hgi <;>
      rcases hpres with h | h | h <;>
      simp [renderStep, hacq, hsub, h, hgi, advanceFrame, recreate_swapchain,
        clearResized, submitFrame, bindImageFence, crossImageWait, waitForFence]
  · intro i e hacq hsub hpres hres
    cases hgi : s.imagesInFlight.getD i none <;>
      rw [List.getD_eq_getElem?_getD] at hgi <;>
      simp [renderStep, hacq, hsub, hres, hpres, hgi, submitFrame,
        bindImageFence, crossImageWait, waitForFence]
  · intro i e hacq hsub
    cases hgi : s.imagesInFlight.getD i none <;>
      rw [List.getD_eq_getElem?_getD] at hgi <;>
      simp [renderStep, hacq, hsub, hgi, bindImageFence, crossImageWait,
        waitForFence]

/-- Witness for C4 at concrete inputs: one state exercised with an
out-of-date acquire, a failing acquire, a suboptimal present, a failing
present, and a failing submission. -/
theorem render_error_paths_witness :
    ((⟨.outOfDate, none, .success, 4⟩ : RenderEnv).acquire = .outOfDate ∧
      (renderStep ⟨0, false, [10, 11], [none], [], 1⟩
        ⟨.outOfDate, none, .success, 4⟩).outcome = .ok ∧
      (renderStep ⟨0, false, [10, 11], [none], [], 1⟩
        ⟨.outOfDate, none, .success, 4⟩).state.frame = 0 ∧
      (renderStep ⟨0, false, [10, 11], [none], [], 1⟩
        ⟨.outOfDate, none, .success, 4⟩).state.numImages = 4) ∧
    ((⟨.failure 7, none, .success, 1⟩ : RenderEnv).acquire = .failure 7 ∧
      (renderStep ⟨0, false, [10, 11], [none], [], 1⟩
        ⟨.failure 7, none, .success, 1⟩).outcome = .fatal 7) ∧
    ((renderStep ⟨0, false, [10, 11], [none], [], 1⟩
        ⟨.success 0, none, .suboptimal, 3⟩).outcome = .ok ∧
      (renderStep ⟨0, false, [10, 11], [none], [], 1⟩
        ⟨.success 0, none, .suboptimal, 3⟩).state.numImages = 3) ∧
    (renderStep ⟨0, false, [10, 11], [none], [], 1⟩
        ⟨.success 0, none, .failure 9, 1⟩).outcome = .fatal 9 ∧
    (renderStep ⟨0, false, [10, 11], [none], [], 1⟩
        ⟨.success 0, some 5, .success, 1⟩).outcome = .panicStop 5 := by
  refine ⟨⟨rfl, ?_, ?_, ?_⟩, ⟨rfl, ?_⟩, ⟨?_, ?_⟩, ?_, ?_⟩
  · exact ((render_error_paths ⟨0, false, [10, 11], [none], [], 1⟩
      ⟨.outOfDate, none, .success, 4⟩).1 rfl).1
  · exact ((render_error_paths ⟨0, false, [10, 11], [none], [], 1⟩
      ⟨.outOfDate, none, .success, 4⟩).1 rfl).2.1
  · exact ((render_error_paths ⟨0, false, [10, 11], [none], [], 1⟩
      ⟨.outOfDate, none, .success, 4⟩).1 rfl).2.2.1
  · exact ((render_error_paths ⟨0, false, [10, 11], [none], [], 1⟩
      ⟨.failure 7, none, .success, 1⟩).2.1 7 rfl).1
  · exact ((render_error_paths ⟨0, false, [10, 11], [none], [], 1⟩
      ⟨.success 0, none, .suboptimal, 3⟩).2.2.1 0 rfl rfl (Or.inr (Or.inl rfl))).1
  · exact ((render_error_paths ⟨0, false, [10, 11], [none], [], 1⟩
      ⟨.success 0, none, .suboptimal, 3⟩).2.2.1 0 rfl rfl (Or.inr (Or.inl rfl))).2.2.1
  · exact ((render_error_paths ⟨0, false, [10, 11], [none], [], 1⟩
      ⟨.success 0, none, .failure 9, 1⟩).2.2.2.1 0 9 rfl rfl rfl rfl).1
  · exact ((render_error_paths ⟨0, false, [10, 11], [none], [], 1⟩
      ⟨.success 0, some 5, .success, 1⟩).2.2.2.2 0 5 rfl rfl).1

/-- Claim C1 counterexample: from a 2-image swapchain with both fence
references initially null, one render call whose present reports suboptimal
binds image 0 to the slot fence and then rebuilds the swapchain at the same
image count; after the rebuild the table has the correct length 2, yet entry
0 still holds the stale fence reference, because Rust's Vec::resize only
fills appended slots and never clears surviving entries. -/
theorem rebuild_keeps_stale_fence_reference :
    Event.rebuildSwapchain ∈
      (renderStep ⟨0, false, [10, 11], [none, none], [], 2⟩
        ⟨.success 0, none, .suboptimal, 2⟩).events ∧
    (renderStep ⟨0, false, [10, 11], [none, none], [], 2⟩
        ⟨.success 0, none, .suboptimal, 2⟩).state.imagesInFlight.length = 2 ∧
    ¬ (∀ f ∈ (renderStep ⟨0, false, [10, 11], [none, none], [], 2⟩
        ⟨.success 0, none, .suboptimal, 2⟩).state.imagesInFlight, f = none) := by
  decide

/-- Claim C1 amended: after every swapchain rebuild the images-in-flight
table has length equal to the new swapchain image count and all outstanding
GPU work has completed, but only the entries appended beyond the old length
are null; entries that survive the resize keep the fence reference they held
before the rebuild. -/
theorem recreate_swapchain_resize_behavior (s : RenderState) (n : Nat) :
    (recreate_swapchain s n).imagesInFlight.length = n ∧
    (recreate_swapchain s n).outstanding = [] ∧
    (recreate_swapchain s n).numImages = n ∧
    (∀ i, s.imagesInFlight.length ≤ i → i < n →
        (recreate_swapchain s n).imagesInFlight.getD i none = none) ∧
    (∀ i, i < s.imagesInFlight.length → i < n →
        (recreate_swapchain s n).imagesInFlight.getD i none =
          s.imagesInFlight.getD i none) := by
  refine ⟨vecResize_length .., rfl, rfl, ?_, ?_⟩
  · intro i h1 h2
    show (vecResize s.imagesInFlight n none).getD i none = none
    rw [List.getD_eq_getElem?_getD, vecResize_getElem?_new _ _ _ _ h1 h2]
    rfl
  · intro i h1 h2
    show (vecResize s.imagesInFlight n none).getD i none = _
    rw [List.getD_eq_getElem?_getD, vecResize_getElem?_old _ _ _ _ h1 h2,
      ← List.getD_eq_getElem?_getD]

/-- Witness for the amended C1: growing a one-entry table holding fence 7 to
two entries yields length 2, a null appended entry, and the surviving stale
entry 7. -/
theorem recreate_swapchain_resize_behavior_witness :
    (recreate_swapchain ⟨0, false, [10, 11], [some 7], [(0, 7)], 1⟩
        2).imagesInFlight.length = 2 ∧
    (recreate_swapchain ⟨0, false, [10, 11], [some 7], [(0, 7)], 1⟩
        2).outstanding = [] ∧
    ((1 ≤ 1 ∧ 1 < 2) ∧
      (recreate_swapchain ⟨0, false, [10, 11], [some 7], [(0, 7)], 1⟩
        2).imagesInFlight.getD 1 none = none) ∧
    ((0 < 1 ∧ 0 < 2) ∧
      (recreate_swapchain ⟨0, false, [10, 11], [some 7], [(0, 7)], 1⟩
        2).imagesInFlight.getD 0 none = some 7) := by
  refine ⟨(recreate_swapchain_resize_behavior _ 2).1,
    (recreate_swapchain_resize_behavior _ 2).2.1,
    ⟨⟨by decide, by decide⟩,
      (recreate_swapchain_resize_behavior _ 2).2.2.2.1 1 (by decide) (by decide)⟩,
    ⟨⟨by decide, by decide⟩, ?_⟩⟩
  rw [(recreate_swapchain_resize_behavior
    ⟨0, false, [10, 11], [some 7], [(0, 7)], 1⟩ 2).2.2.2.2 0 (by decide) (by decide)]
  decide

/-- Claim C5: every secondary-buffer recording performs exactly two
push-constant writes: the 64-byte model matrix at offset 0 for the vertex
stage, covering bytes 0 to 63, and the 4-byte opacity at offset 64 for the
fragment stage, covering bytes 64 to 67; the two byte ranges are disjoint. -/
theorem push_constant_ranges_disjoint (imageIndex indexCount : Nat) :
    pushRangesOf (secondaryCommands imageIndex indexCount) =
      [⟨.vertex, 0, 64⟩, ⟨.fragment, 64, 4⟩] ∧
    byteRange ⟨.vertex, 0, 64⟩ = Finset.Ico 0 64 ∧
    byteRange ⟨.fragment, 64, 4⟩ = Finset.Ico 64 68 ∧
    Disjoint (byteRange ⟨.vertex, 0, 64⟩) (byteRange ⟨.fragment, 64, 4⟩) := by
  refine ⟨rfl, rfl, rfl, ?_⟩
  rw [Finset.disjoint_left]
  intro a ha hb
  simp only [byteRange, Finset.mem_Ico] at ha hb
  omega

/-- Claim C6: per-drawable instance data is deterministic in the drawable
index i and elapsed time t, and agrees with the spec's closed formulas:
translation (0, (i mod 2)*2.5 - 1.25, -2*(i div 2) + 1), rotation 90*t
degrees about the Z axis, opacity (i+1)*0.25; in particular drawable 0 at
t = 0 and drawable 3 at t = 1 take the claimed values. -/
theorem drawable_instance_data_deterministic :
    (∀ i, drawableTranslation i = specTranslation i) ∧
    (∀ t, drawableRotationDegrees t = 90 * t) ∧
    rotationAxis = (0, 0, 1) ∧
    (∀ i, drawableOpacity i = specOpacity i) ∧
    drawableTranslation 0 = (0, -1.25, 1) ∧
    drawableRotationDegrees 0 = 0 ∧
    drawableOpacity 0 = 0.25 ∧
    drawableTranslation 3 = (0, 1.25, -1) ∧
    drawableRotationDegrees 1 = 90 ∧
    drawableOpacity 3 = 1 := by
  refine ⟨?_, ?_, rfl, ?_, ?_, ?_, ?_, ?_, ?_, ?_⟩
  · intro i
    simp only [drawableTranslation, specTranslation, drawableY, drawableZ]
    refine Prod.ext rfl (Prod.ext rfl ?_)
    push_cast
    ring
  · intro t
    rfl
  · intro i
    simp only [drawableOpacity, specOpacity]
    push_cast
    ring
  · norm_num [drawableTranslation, drawableY, drawableZ, Prod.ext_iff]
  · norm_num [drawableRotationDegrees]
  · norm_num [drawableOpacity]
  · norm_num [drawableTranslation, drawableY, drawableZ, Prod.ext_iff]
  · norm_num [drawableRotationDegrees]
  · norm_num [drawableOpacity]

theorem findSuitable_some_iff (p : Nat → Bool) (count : Nat) :
    ∀ n i, count - i = n → ∀ r,
      (findSuitable p i count = some r ↔
        (i ≤ r ∧ r < count ∧ p r = true ∧
          ∀ j, i ≤ j → j < r → p j = false)) := by
  intro n
  induction n with
  | zero =>
      intro i hn r
      rw [findSuitable, if_neg (by omega)]
      constructor
      · intro h
        exact Option.noConfusion h
      · rintro ⟨h1, h2, h3, h4⟩
        omega
  | succ n ih =>
      intro i hn r
      rw [findSuitable]
      by_cases hic : i < count
      · rw [if_pos hic]
        cases hpi : p i with
        | true =>
            simp only [if_pos rfl]
            constructor
            · intro h
              injection h with h
              subst h
              exact ⟨Nat.le_refl i, hic, hpi, fun j hj1 hj2 => by omega⟩
            · rintro ⟨h1, h2, h3, h4⟩
              rcases Nat.lt_or_ge i r with hlt | hge
              · exact absurd (h4 i (Nat.le_refl i) hlt) (by simp [hpi])
              · have : r = i := by omega
                subst this
                rfl
        | false =>
            rw [if_neg (by simp)]
            rw [ih (i + 1) (by omega) r]
            constructor
            · rintro ⟨h1, h2, h3, h4⟩
              refine ⟨by omega, h2, h3, fun j hj1 hj2 => ?_⟩
              rcases Nat.eq_or_lt_of_le hj1 with he | hlt
              · rw [← he]; exact hpi
              · exact h4 j hlt hj2
            · rintro ⟨h1, h2, h3, h4⟩
              refine ⟨?_, h2, h3, fun j hj1 hj2 => h4 j (by omega) hj2⟩
              rcases Nat.eq_or_lt_of_le h1 with he | hlt
              · subst he
                rw [hpi] at h3
                exact Bool.noConfusion h3
              · omega
      · rw [if_neg hic]
        constructor
        · intro h
          exact Option.noConfusion h
        · rintro ⟨h1, h2, h3, h4⟩
          omega

theorem findSuitable_none_iff (p : Nat → Bool) (count : Nat) :
    ∀ n i, count - i = n →
      (findSuitable p i count = none ↔
        ∀ j, i ≤ j → j < count → p j = false) := by
  intro n
  induction n with
  | zero =>
      intro i hn
      rw [findSuitable, if_neg (by omega)]
      simp only [true_iff]
      intro j hj1 hj2
      omega
  | succ n ih =>
      intro i hn
      rw [findSuitable]
      by_cases hic : i < count
      · rw [if_pos hic]
        cases hpi : p i with
        | true =>
            simp only [if_pos rfl]
            constructor
            · intro h
              exact Option.noConfusion h
            · intro h
              rw [h i (Nat.le_refl i) hic] at hpi
              exact Bool.noConfusion hpi
        | false =>
            rw [if_neg (by simp)]
            rw [ih (i + 1) (by omega)]
            constructor
            · intro h j hj1 hj2
              rcases Nat.eq_or_lt_of_le hj1 with he | hlt
              · rw [← he]; exact hpi
              · exact h j hlt hj2
            · intro h j hj1 hj2
              exact h j (by omega) hj2
      · rw [if_neg hic]
        simp only [true_iff]
        intro j hj1 hj2
        omega

theorem memoryTypeSuitable_iff (memoryTypeBits : Nat) (typeFlags : Nat → Nat)
    (properties i : Nat) :
    memoryTypeSuitable memoryTypeBits typeFlags properties i = true ↔
      (memoryTypeBits &&& (1 <<< i) ≠ 0 ∧
        typeFlags i &&& properties = properties) := by
  simp [memoryTypeSuitable]

/-- Claim C9: memory-type selection returns .ok i exactly when i is the
first index below the type count whose bit is set in the resource's
memory-type bitmask and whose property flags contain all required flags,
and returns the no-suitable-memory-type error exactly when no index
satisfies both constraints. -/
theorem get_memory_type_index_first_suitable (count : Nat)
    (typeFlags : Nat → Nat) (properties memoryTypeBits : Nat) :
    (∀ i, get_memory_type_index count typeFlags properties memoryTypeBits =
        .ok i ↔
      (i < count ∧
        (memoryTypeBits &&& (1 <<< i) ≠ 0 ∧
          typeFlags i &&& properties = properties) ∧
        ∀ j, j < i →
          ¬(memoryTypeBits &&& (1 <<< j) ≠ 0 ∧
            typeFlags j &&& properties = properties))) ∧
    (get_memory_type_index count typeFlags properties memoryTypeBits =
        .error .noSuitableMemoryType ↔
      ∀ i, i < count →
        ¬(memoryTypeBits &&& (1 <<< i) ≠ 0 ∧
          typeFlags i &&& properties = properties)) := by
  constructor
  · intro i
    rw [get_memory_type_index]
    cases hf : findSuitable
        (memoryTypeSuitable memoryTypeBits typeFlags properties) 0 count with
    | some r =>
        rw [findSuitable_some_iff _ count (count - 0) 0 rfl r] at hf
        obtain ⟨_, h2, h3, h4⟩ := hf
        constructor
        · intro h
          injection h with h
          subst h
          refine ⟨h2, (memoryTypeSuitable_iff ..).mp h3, fun j hj hsj => ?_⟩
          have hfalse := h4 j (Nat.zero_le j) hj
          have htrue := (memoryTypeSuitable_iff memoryTypeBits typeFlags
            properties j).mpr hsj
          rw [hfalse] at htrue
          exact Bool.noConfusion htrue
        · rintro ⟨hic, hsi, hfirst⟩
          have hri : r = i := by
            rcases Nat.lt_trichotomy r i with h | h | h
            · exact absurd ((memoryTypeSuitable_iff ..).mp h3) (hfirst r h)
            · exact h
            · have hfalse := h4 i (Nat.zero_le i) h
              have htrue := (memoryTypeSuitable_iff memoryTypeBits typeFlags
                properties i).mpr hsi
              rw [hfalse] at htrue
              exact Bool.noConfusion htrue
          rw [hri]
    | none =>
        rw [findSuitable_none_iff _ count (count - 0) 0 rfl] at hf
        constructor
        · intro h
          exact Except.noConfusion h
        · rintro ⟨hic, hsi, hfirst⟩
          have := hf i (Nat.zero_le i) hic
          exact absurd ((memoryTypeSuitable_iff ..).mpr hsi) (by simp [this])
  · rw [get_memory_type_index]
    cases hf : findSuitable
        (memoryTypeSuitable memoryTypeBits typeFlags properties) 0 count with
    | some r =>
        rw [findSuitable_some_iff _ count (count - 0) 0 rfl r] at hf
        obtain ⟨_, h2, h3, _⟩ := hf
        constructor
        · intro h
          exact Except.noConfusion h
        · intro h
          exact absurd ((memoryTypeSuitable_iff ..).mp h3) (h r h2)
    | none =>
        rw [findSuitable_none_iff _ count (count - 0) 0 rfl] at hf
        simp only [true_iff]
        intro i hic hsi
        have := hf i (Nat.zero_le i) hic
        exact absurd ((memoryTypeSuitable_iff ..).mpr hsi) (by simp [this])

/-- Witness for C9: with two memory types whose flags are 1 and 3, required
flags 2, and bitmask 3, type 0 lacks the flags and type 1 is the first
suitable index, so the selection returns .ok 1; with required flags 4 no
type fits and the error is returned. -/
theorem get_memory_type_index_first_suitable_witness :
    get_memory_type_index 2 (fun i => if i = 0 then 1 else 3) 2 3 = .ok 1 ∧
    get_memory_type_index 2 (fun i => if i = 0 then 1 else 3) 4 3 =
      .error .noSuitableMemoryType := by
  constructor
  · exact ((get_memory_type_index_first_suitable 2
      (fun i => if i = 0 then 1 else 3) 2 3).1 1).mpr
      ⟨by decide, ⟨by decide, by decide⟩, by decide⟩
  · exact (get_memory_type_index_first_suitable 2
      (fun i => if i = 0 then 1 else 3) 4 3).2.mpr (by decide)

/-- Claim C10: after create_sync_objects from the default state there are
exactly MAX_FRAMES_IN_FLIGHT = 2 in-flight fences, all created signaled,
exactly 2 image-available and 2 render-finished semaphores, and one null
fence reference per swapchain image; hence the first render call on either
frame slot passes its initial fence wait without blocking. -/
theorem create_sync_objects_postcondition (numImages : Nat) :
    (create_sync_objects numImages initialSyncGen).data.inFlightFences.length =
      MAX_FRAMES_IN_FLIGHT ∧
    (∀ f ∈ (create_sync_objects numImages initialSyncGen).data.inFlightFences,
      f.signaled = true) ∧
    (create_sync_objects numImages
      initialSyncGen).data.imageAvailableSemaphore.length = 2 ∧
    (create_sync_objects numImages
      initialSyncGen).data.renderFinishedSemaphore.length = 2 ∧
    (create_sync_objects numImages initialSyncGen).data.imagesInFlight =
      List.replicate numImages none ∧
    (∀ slot, slot < MAX_FRAMES_IN_FLIGHT →
      fenceWaitWouldBlock
        ((create_sync_objects numImages initialSyncGen).data.inFlightFences.getD
          slot ⟨0, false⟩) = false) := by
  have hgen : create_sync_objects numImages initialSyncGen =
      ⟨⟨[0, 3], [1, 4], [⟨2, true⟩, ⟨5, true⟩],
        (List.range numImages).map (fun _ => none)⟩, 6⟩ := rfl
  rw [hgen]
  refine ⟨rfl, ?_, rfl, rfl, ?_, ?_⟩
  · show ∀ f ∈ [(⟨2, true⟩ : FenceObj), ⟨5, true⟩], f.signaled = true
    decide
  · show (List.range numImages).map (fun _ => none) = _
    rw [List.map_const']
    rw [List.length_range]
  · intro slot hslot
    rw [MAX_FRAMES_IN_FLIGHT] at hslot
    interval_cases slot <;> rfl

/-- Witness for C10 at three swapchain images: two signaled fences, the
three-entry null table, and a non-blocking initial wait on slot 1. -/
theorem create_sync_objects_postcondition_witness :
    (create_sync_objects 3 initialSyncGen).data.inFlightFences.length =
      MAX_FRAMES_IN_FLIGHT ∧
    (create_sync_objects 3 initialSyncGen).data.imagesInFlight =
      List.replicate 3 none ∧
    (1 < MAX_FRAMES_IN_FLIGHT ∧
      fenceWaitWouldBlock
        ((create_sync_objects 3 initialSyncGen).data.inFlightFences.getD
          1 ⟨0, false⟩) = false) :=
  ⟨(create_sync_objects_postcondition 3).1,
    (create_sync_objects_postcondition 3).2.2.2.2.1,
    ⟨by decide, (create_sync_objects_postcondition 3).2.2.2.2.2 1 (by decide)⟩⟩

theorem take_trans {α : Type} (l1 l2 l3 : List α)
    (h12 : l2.take l1.length = l1) (h23 : l3.take l2.length = l2)
    (hle : l1.length ≤ l2.length) : l3.take l1.length = l1 := by
  have h : (l3.take l2.length).take l1.length = l1 := by
    rw [h23]; exact h12
  rw [List.take_take, Nat.min_eq_left hle] at h
  exact h

theorem allocateThrough_spec :
    ∀ k (bufs : List Nat) (m next : Nat), m + 1 - bufs.length = k →
      (allocateThrough bufs m next).1.length = max bufs.length (m + 1) ∧
      (allocateThrough bufs m next).1.take bufs.length = bufs := by
  intro k
  induction k with
  | zero =>
      intro bufs m next hk
      rw [allocateThrough, if_neg (by omega)]
      refine ⟨?_, List.take_length bufs⟩
      show bufs.length = max bufs.length (m + 1)
      omega
  | succ k ih =>
      intro bufs m next hk
      by_cases h : bufs.length ≤ m
      · rw [allocateThrough, if_pos h]
        obtain ⟨ih1, ih2⟩ := ih (bufs ++ [next]) m (next + 1)
          (by simp only [List.length_append, List.length_cons,
            List.length_nil]; omega)
        rw [List.length_append] at ih1
        constructor
        · rw [ih1]
          simp only [List.length_cons, List.length_nil]
          omega
        · rw [List.length_append] at ih2
          have htake : (allocateThrough (bufs ++ [next]) m
              (next + 1)).1.take (bufs ++ [next]).length = bufs ++ [next] := by
            rw [List.length_append]
            simp only [List.length_cons, List.length_nil]
            exact ih2
          refine take_trans bufs (bufs ++ [next]) _ ?_ htake ?_
          · exact List.take_left bufs [next]
          · rw [List.length_append]; omega
      · rw [allocateThrough, if_neg h]
        refine ⟨?_, List.take_length bufs⟩
        show bufs.length = max bufs.length (m + 1)
        omega

theorem update_command_buffer_record_spec (models : Nat) :
    ∀ bufs next : _,
      (update_command_buffer_record bufs models next).1.length =
        max bufs.length models ∧
      (update_command_buffer_record bufs models next).1.take bufs.length =
        bufs := by
  induction models with
  | zero =>
      intro bufs next
      exact ⟨(Nat.max_zero bufs.length).symm, List.take_length bufs⟩
  | succ m ihm =>
      intro bufs next
      rw [update_command_buffer_record, List.range_succ, List.foldl_append]
      obtain ⟨ih1, ih2⟩ := ihm bufs next
      rw [update_command_buffer_record] at ih1 ih2
      obtain ⟨a1, a2⟩ := allocateThrough_spec
        (m + 1 - ((List.range m).foldl
          (fun acc i => allocateThrough acc.1 i acc.2) (bufs, next)).1.length)
        _ m _ rfl
      constructor
      · show (allocateThrough _ m _).1.length = _
        rw [a1, ih1]
        omega
      · show (allocateThrough _ m _).1.take bufs.length = bufs
        refine take_trans bufs _ _ ih2 a2 ?_
        rw [ih1]
        exact Nat.le_max_left ..

theorem runFrames_length_aux (ms : List Nat) :
    ∀ (bufs : List Nat) (next : Nat),
      ((ms.foldl (fun acc m => update_command_buffer_record acc.1 m acc.2)
        (bufs, next)).1.length = ms.foldl (fun a m => max a m) bufs.length) := by
  induction ms with
  | nil => intro bufs next; rfl
  | cons m ms ih =>
      intro bufs next
      have h := ih (update_command_buffer_record bufs m next).1
        (update_command_buffer_record bufs m next).2
      have hlen := (update_command_buffer_record_spec m bufs next).1
      calc (((m :: ms).foldl (fun acc x => update_command_buffer_record acc.1 x acc.2)
            (bufs, next)).1.length)
          = ms.foldl (fun a x => max a x)
              (update_command_buffer_record bufs m next).1.length := h
        _ = ms.foldl (fun a x => max a x) (max bufs.length m) := by rw [hlen]
        _ = (m :: ms).foldl (fun a x => max a x) bufs.length := rfl

theorem range_union_range (a b : Nat) :
    Finset.range a ∪ Finset.range b = Finset.range (max a b) := by
  ext x
  simp only [Finset.mem_union, Finset.mem_range]
  omega

theorem foldl_union_range (ms : List Nat) :
    ∀ k, ms.foldl (fun acc m => acc ∪ Finset.range m) (Finset.range k) =
      Finset.range (ms.foldl (fun a m => max a m) k) := by
  induction ms with
  | nil => intro k; rfl
  | cons m ms ih =>
      intro k
      show ms.foldl _ (Finset.range k ∪ Finset.range m) = _
      rw [range_union_range]
      exact ih (max k m)

/-- Claim C7: secondary buffers are allocated only when a drawable index at
or beyond the current list length is recorded, the list is never shrunk (the
old entries survive as a prefix), each recording leaves the length at the
maximum of the old length and the drawable count, and over a whole history
starting from the empty list the length equals the number of distinct
drawable indices ever recorded. -/
theorem secondary_buffer_growth :
    (∀ (bufs : List Nat) (m next : Nat), m < bufs.length →
        allocateThrough bufs m next = (bufs, next)) ∧
    (∀ (bufs : List Nat) (m next : Nat),
        (allocateThrough bufs m next).1.length = max bufs.length (m + 1) ∧
        (allocateThrough bufs m next).1.take bufs.length = bufs) ∧
    (∀ (bufs : List Nat) (models next : Nat),
        (update_command_buffer_record bufs models next).1.length =
          max bufs.length models ∧
        (update_command_buffer_record bufs models next).1.take bufs.length =
          bufs ∧
        bufs.length ≤
          (update_command_buffer_record bufs models next).1.length) ∧
    (∀ ms : List Nat, (runFrames ms).1.length = (recordedIndices ms).card) := by
  refine ⟨?_, ?_, ?_, ?_⟩
  · intro bufs m next h
    rw [allocateThrough, if_neg (by omega)]
  · intro bufs m next
    exact allocateThrough_spec (m + 1 - bufs.length) bufs m next rfl
  · intro bufs models next
    obtain ⟨h1, h2⟩ := update_command_buffer_record_spec models bufs next
    exact ⟨h1, h2, by rw [h1]; exact Nat.le_max_left ..⟩
  · intro ms
    rw [runFrames, runFrames_length_aux ms [] 0, recordedIndices,
      show (∅ : Finset Nat) = Finset.range 0 from rfl, foldl_union_range,
      Finset.card_range]
    rfl

/-- Witness for C7: recording drawable 1 into a 2-buffer list allocates
nothing; histories with drawable counts 4, 2, 4 leave 4 buffers, the number
of distinct drawable indices ever recorded. -/
theorem secondary_buffer_growth_witness :
    (1 < 2 ∧ allocateThrough [100, 101] 1 102 = ([100, 101], 102)) ∧
    (update_command_buffer_record [100, 101] 4 102).1.length = max 2 4 ∧
    (runFrames [4, 2, 4]).1.length = (recordedIndices [4, 2, 4]).card := by
  refine ⟨⟨by decide, ?_⟩, ?_, secondary_buffer_growth.2.2.2 [4, 2, 4]⟩
  · exact secondary_buffer_growth.1 [100, 101] 1 102 (by decide)
  · exact (secondary_buffer_growth.2.2.1 [100, 101] 4 102).1

theorem eventBefore_append_left (l1 l2 : List TeardownEvent)
    (a b : TeardownEvent) (h : eventBefore l1 a b) :
    eventBefore (l1 ++ l2) a b := by
  obtain ⟨i, hi, j, hj, hij, ha, hb⟩ := h
  rw [Finset.mem_range] at hi hj
  refine ⟨i, ?_, j, ?_, hij, ?_, ?_⟩
  · rw [Finset.mem_range, List.length_append]; omega
  · rw [Finset.mem_range, List.length_append]; omega
  · rw [List.get?_eq_getElem?] at ha ⊢
    rw [List.getElem?_append, if_pos hi]
    exact ha
  · rw [List.get?_eq_getElem?] at hb ⊢
    rw [List.getElem?_append, if_pos hj]
    exact hb

theorem eventBefore_append_right (l1 l2 : List TeardownEvent)
    (a b : TeardownEvent) (h : eventBefore l2 a b) :
    eventBefore (l1 ++ l2) a b := by
  obtain ⟨i, hi, j, hj, hij, ha, hb⟩ := h
  rw [Finset.mem_range] at hi hj
  refine ⟨l1.length + i, ?_, l1.length + j, ?_, by omega, ?_, ?_⟩
  · rw [Finset.mem_range, List.length_append]; omega
  · rw [Finset.mem_range, List.length_append]; omega
  · rw [List.get?_eq_getElem?] at ha ⊢
    rw [List.getElem?_append_right (by omega),
      show l1.length + i - l1.length = i by omega]
    exact ha
  · rw [List.get?_eq_getElem?] at hb ⊢
    rw [List.getElem?_append_right (by omega),
      show l1.length + j - l1.length = j by omega]
    exact hb

theorem eventBefore_of_mem (l1 l2 : List TeardownEvent) (a b : TeardownEvent)
    (ha : a ∈ l1) (hb : b ∈ l2) : eventBefore (l1 ++ l2) a b := by
  obtain ⟨i, hi⟩ := List.get?_of_mem ha
  obtain ⟨j, hj⟩ := List.get?_of_mem hb
  rw [List.get?_eq_getElem?] at hi hj
  obtain ⟨hilt, -⟩ := List.getElem?_eq_some.mp hi
  obtain ⟨hjlt, -⟩ := List.getElem?_eq_some.mp hj
  refine ⟨i, ?_, l1.length + j, ?_, by omega, ?_, ?_⟩
  · rw [Finset.mem_range, List.length_append]; omega
  · rw [Finset.mem_range, List.length_append]; omega
  · rw [List.get?_eq_getElem?, List.getElem?_append, if_pos hilt]
    exact hi
  · rw [List.get?_eq_getElem?, List.getElem?_append_right (by omega),
      show l1.length + j - l1.length = j by omega]
    exact hj

/-- Claim C8 counterexample: in App::destroy with one swapchain image, both
the index-buffer destroy and its memory free occur, but the destroy does not
precede the free (the code frees the memory first); moreover uniform buffer
1 (created after uniform buffer 0) is not destroyed before uniform buffer 0
in destroy_swapchain, so buffer teardown is not in strict reverse-creation
order either. -/
theorem teardown_destroy_after_free_counterexample :
    TeardownEvent.destroyObj .indexBuffer ∈ destroy_events 1 ∧
    TeardownEvent.freeMem .indexBuffer ∈ destroy_events 1 ∧
    ¬ eventBefore (destroy_events 1)
      (.destroyObj .indexBuffer) (.freeMem .indexBuffer) ∧
    ¬ eventBefore (destroy_swapchain_events 2)
      (.destroyObj (.uniformBuffer 1)) (.destroyObj (.uniformBuffer 0)) := by
  decide

/-- Claim C8 amended: in App::destroy and App::destroy_swapchain each GPU
buffer or image has its backing device-memory allocation freed immediately
before (not after) the buffer or image itself is destroyed; only the
staging-buffer teardown inside the upload path destroys the buffer before
freeing its memory as the original claim states. -/
theorem teardown_free_precedes_destroy (n : Nat) :
    eventBefore (destroy_events n)
      (.freeMem .indexBuffer) (.destroyObj .indexBuffer) ∧
    eventBefore (destroy_events n)
      (.freeMem .vertexBuffer) (.destroyObj .vertexBuffer) ∧
    eventBefore (destroy_events n)
      (.freeMem .textureImage) (.destroyObj .textureImage) ∧
    (∀ i, i < n → eventBefore (destroy_swapchain_events n)
      (.freeMem (.uniformBuffer i)) (.destroyObj (.uniformBuffer i))) ∧
    eventBefore (destroy_swapchain_events n)
      (.freeMem .depthImage) (.destroyObj .depthImage) ∧
    eventBefore (destroy_swapchain_events n)
      (.freeMem .colorImage) (.destroyObj .colorImage) ∧
    eventBefore staging_teardown_events
      (.destroyObj .stagingBuffer) (.freeMem .stagingBuffer) := by
  refine ⟨?_, ?_, ?_, ?_, ?_, ?_, by decide⟩
  · rw [destroy_events]
    exact eventBefore_append_right _ _ _ _ (by decide)
  · rw [destroy_events]
    exact eventBefore_append_right _ _ _ _ (by decide)
  · rw [destroy_events]
    exact eventBefore_append_right _ _ _ _ (by decide)
  · intro i hi
    rw [destroy_swapchain_events]
    apply eventBefore_append_left
    apply eventBefore_append_left
    apply eventBefore_append_left
    apply eventBefore_append_left
    apply eventBefore_append_left
    apply eventBefore_of_mem
    · rw [List.mem_append]
      right
      rw [List.mem_map]
      exact ⟨i, List.mem_range.mpr hi, rfl⟩
    · rw [List.mem_map]
      exact ⟨i, List.mem_range.mpr hi, rfl⟩
  · rw [destroy_swapchain_events]
    apply eventBefore_append_left
    apply eventBefore_append_left
    apply eventBefore_append_left
    apply eventBefore_append_left
    exact eventBefore_append_right _ _ _ _ (by decide)
  · rw [destroy_swapchain_events]
    apply eventBefore_append_left
    apply eventBefore_append_left
    apply eventBefore_append_left
    apply eventBefore_append_left
    exact eventBefore_append_right _ _ _ _ (by decide)

/-- Witness for the amended C8 at one swapchain image and uniform buffer 0. -/
theorem teardown_free_precedes_destroy_witness :
    eventBefore (destroy_events 1)
      (.freeMem .indexBuffer) (.destroyObj .indexBuffer) ∧
    (0 < 1 ∧ eventBefore (destroy_swapchain_events 1)
      (.freeMem (.uniformBuffer 0)) (.destroyObj (.uniformBuffer 0))) ∧
    eventBefore (destroy_swapchain_events 1)
      (.freeMem .depthImage) (.destroyObj .depthImage) :=
  ⟨(teardown_free_precedes_destroy 1).1,
    ⟨Nat.zero_lt_one, (teardown_free_precedes_destroy 1).2.2.2.1 0 Nat.zero_lt_one⟩,
    (teardown_free_precedes_destroy 1).2.2.2.2.1⟩

end OzenAthena
